import Mathlib

/-!
Verification of the value-flow computation engine of this repository:
the formula validator/executor with scale tracking
(`packages/km/examples/takeaway/src/graph-solver/execution.py`, and the
older variant `packages/km/examples/bill234/src/graph-solver/execution.py`),
the per-conversation value store writes
(`packages/km/examples/takeaway/src/graph-solver/__tests__/test_example.py`),
and the phase-retry engine
(`packages/km/examples/bill234/src/graph-solver/retry_framework.py`).

Numbers are modelled as rationals (`ℚ`): the engine's arithmetic is plain
`+ - * /` on Python floats, and every property checked here concerns exact
small values for which rational arithmetic agrees with the source.
-/

namespace GraphSolver

/-! ## Association lists standing for Python dicts (insertion ordered) -/

/-- Python `k in d` membership test for a dict modelled as an association
list in insertion order. -/
def dictContains {α : Type} (d : List (String × α)) (k : String) : Bool :=
  d.any (fun p => p.1 == k)

/-- Python `d[k]` lookup (first, i.e. unique, occurrence). -/
def dictGet? {α : Type} : List (String × α) → String → Option α
  | [], _ => none
  | p :: rest, k => if p.1 == k then some p.2 else dictGet? rest k

/-- Python `d[k] = v` assignment: replaces in place when the key is present,
otherwise appends (dict insertion order semantics). -/
def dictSet {α : Type} : List (String × α) → String → α → List (String × α)
  | [], k, v => [(k, v)]
  | p :: rest, k, v => if p.1 == k then (k, v) :: rest else p :: dictSet rest k v

/-! ## Substring tests, for the Python `pat in formula` checks -/

/-- Whether `pat` is a prefix of `s` (on character lists). -/
def listPrefix : List Char → List Char → Bool
  | [], _ => true
  | _ :: _, [] => false
  | a :: as, b :: bs => a == b && listPrefix as bs

/-- Whether `pat` occurs somewhere inside `s` (on character lists). -/
def listContains (pat : List Char) : List Char → Bool
  | [] => listPrefix pat []
  | c :: rest => listPrefix pat (c :: rest) || listContains pat rest

/-- Python's `pat in s` substring test on strings. -/
def strContains (s pat : String) : Bool :=
  listContains pat.data s.data

/-! ## Data model: scales and value objects (execution.py) -/

/-- The `SCALE_FACTORS` dict of execution.py. -/
def SCALE_FACTORS : List (String × ℚ) :=
  [("Units", 1), ("Thousands", 1000), ("Millions", 1000000), ("Billions", 1000000000)]

/-- Python `SCALE_FACTORS.get(scale, 1)`. -/
def scaleFactor (scale : String) : ℚ :=
  (dictGet? SCALE_FACTORS scale).getD 1

/-- An input value object `{value, scale, source, description}` as the
executor reads it (it accesses `obj['value']` and `obj.get('scale','Units')`;
the scale is a plain string in the source). -/
structure ValueObj where
  value : ℚ
  scale : String
  source : String
  description : String
deriving DecidableEq, Repr

/-- The value object returned by the takeaway `execute_formula`:
`{value, display_value, scale, source, description}`. -/
structure ResultObj where
  value : ℚ
  display_value : ℚ
  scale : String
  source : String
  description : String
deriving DecidableEq, Repr

/-- The value object returned by the bill234 `execute_formula`, which has no
`display_value` field. -/
structure ResultObjB where
  value : ℚ
  scale : String
  source : String
  description : String
deriving DecidableEq, Repr

/-! ## Python expression trees

`validate_formula` parses the formula with `ast.parse(formula, mode='eval')`
and then walks the resulting tree; `eval` evaluates the same text. The
parser itself is Python's and is not re-implemented here: the embedding
works on the parsed tree, paired where needed with the formula text the
tree came from. The node kinds below cover the expression forms the claims
exercise; `ast.walk` finds `ast.Name` nodes in all of them. -/

inductive BinOp
  | add
  | sub
  | mul
  | div
deriving DecidableEq, Repr

inductive CmpOp
  | lt
  | le
  | gt
  | ge
  | eq
  | ne
deriving DecidableEq, Repr

inductive PyExpr
  | num (n : ℚ)
  | name (id : String)
  | binop (op : BinOp) (l r : PyExpr)
  | call (f : PyExpr) (args : List PyExpr)
  | compare (op : CmpOp) (l r : PyExpr)
  | ifExp (c t e : PyExpr)
  | lam (body : PyExpr)
  | attr (obj : PyExpr) (field : String)
  | subscript (obj idx : PyExpr)
  | strLit (s : String)

mutual
/-- The `ast.Name` identifiers of a tree, as `ast.walk` collects them
(`{node.id for node in ast.walk(tree) if isinstance(node, ast.Name)}`);
an attribute's field name is not an `ast.Name` node. -/
def collectNames : PyExpr → List String
  | .num _ => []
  | .name id => [id]
  | .binop _ l r => collectNames l ++ collectNames r
  | .call f args => collectNames f ++ collectNamesList args
  | .compare _ l r => collectNames l ++ collectNames r
  | .ifExp c t e => collectNames c ++ collectNames t ++ collectNames e
  | .lam body => collectNames body
  | .attr obj _ => collectNames obj
  | .subscript obj idx => collectNames obj ++ collectNames idx
  | .strLit _ => []

def collectNamesList : List PyExpr → List String
  | [] => []
  | e :: es => collectNames e ++ collectNamesList es
end

/-! ## Formula validation (validate_formula) -/

/-- The function names `validate_formula` in the takeaway execution.py adds
to the allowed variables (they are bound in the executor's `safe_dict`). -/
def WHITELIST : List String :=
  ["abs", "min", "max", "round", "to_percentage", "in_millions", "in_thousands", "in_billions"]

/-- The smaller whitelist of the bill234 execution.py, which has no scale
conversion functions. -/
def WHITELIST_B : List String :=
  ["abs", "min", "max", "round", "to_percentage"]

/-- The `ValueError` raised by `validate_formula`, which interpolates the
set of undefined variables and the available variable names into its
message; modelled structurally as the data the message carries. -/
structure UndefinedVarError where
  undefined : List String
  available : List String
deriving DecidableEq, Repr

/-- Validation of a parsed formula tree against a list of variable names
and a function whitelist: collect the used `ast.Name` identifiers, subtract
the allowed set, and fail when any remain. Mirrors `validate_formula` after
the `ast.parse` step (a Python `SyntaxError` happens at parse, before this
logic, so the embedding starts from a parsed tree). -/
def validateTree (whitelist : List String) (tree : PyExpr) (variable_names : List String) :
    Except UndefinedVarError Unit :=
  let used := (collectNames tree).dedup
  let allowed := variable_names ++ whitelist
  let undefined := used.filter (fun v => !(allowed.contains v))
  if undefined.isEmpty then .ok () else .error ⟨undefined, variable_names⟩

/-- `validate_formula` of the takeaway execution.py (post-parse). -/
def validate_formula (tree : PyExpr) (variable_names : List String) :
    Except UndefinedVarError Unit :=
  validateTree WHITELIST tree variable_names

/-- `validate_formula` of the bill234 execution.py (post-parse). -/
def validate_formula_b (tree : PyExpr) (variable_names : List String) :
    Except UndefinedVarError Unit :=
  validateTree WHITELIST_B tree variable_names

/-! ## Formula evaluation: the `eval(formula, safe_dict)` call

The `safe_dict` binds the whitelisted functions and the numeric value of
every binding (`values` shadow same-named functions, since `safe_dict` is
updated with `values` last). Evaluation is numeric: Python bools coerce to
0/1 in arithmetic, exactly as in the source; values outside the engine's
numeric domain (bare function references, string literals, lambdas,
attribute access and subscription, which no formula of this pipeline
produces) are modelled as type errors. -/

/-- Runtime errors `eval` can raise on the modelled value domain. -/
inductive PyErr
  | zeroDivision
  | typeError
  | nameError (id : String)
deriving DecidableEq, Repr

/-- Values the evaluator manipulates. -/
inductive PyVal
  | num (q : ℚ)
  | bool (b : Bool)
  | func (name : String)
deriving DecidableEq, Repr

/-- Numeric coercion: Python bools are ints (`True == 1`, `False == 0`);
arithmetic on a function object raises `TypeError`. -/
def toQ : PyVal → Except PyErr ℚ
  | .num q => .ok q
  | .bool b => .ok (if b then 1 else 0)
  | .func _ => .error .typeError

/-- Python `min` over one or more numeric arguments. -/
def listMin : ℚ → List ℚ → ℚ
  | q, [] => q
  | q, x :: xs => listMin (min q x) xs

/-- Python `max` over one or more numeric arguments. -/
def listMax : ℚ → List ℚ → ℚ
  | q, [] => q
  | q, x :: xs => listMax (max q x) xs

/-- Python one-argument `round`: round half to even. -/
def pyRound (q : ℚ) : ℚ :=
  let f : ℤ := ⌊q⌋
  let frac := q - f
  if frac < 1 / 2 then f
  else if 1 / 2 < frac then f + 1
  else if f % 2 = 0 then f else f + 1

/-- The fixed implementations bound in `safe_dict`: `abs/min/max/round` are
the Python builtins, `to_percentage(x) = x * 100`, and the conversions
divide by the scale factor (`in_millions(x) = x / SCALE_FACTORS['Millions']`
and so on). Arities the builtins reject are type errors. -/
def applyFunc : String → List ℚ → Except PyErr ℚ
  | "abs", [x] => .ok |x|
  | "min", x :: xs => .ok (listMin x xs)
  | "max", x :: xs => .ok (listMax x xs)
  | "round", [x] => .ok (pyRound x)
  | "to_percentage", [x] => .ok (x * 100)
  | "in_millions", [x] => .ok (x / 1000000)
  | "in_thousands", [x] => .ok (x / 1000)
  | "in_billions", [x] => .ok (x / 1000000000)
  | _, _ => .error .typeError

mutual
/-- Recursive evaluation of a parsed formula against the `safe_dict`
environment: `funcs` are the function names the dict binds, `env` the
numeric values. Division by zero raises `ZeroDivisionError`; an identifier
bound by neither raises `NameError` (unreachable after validation). -/
def evalExpr (funcs : List String) (env : List (String × ℚ)) : PyExpr → Except PyErr PyVal
  | .num n => .ok (.num n)
  | .name id =>
      match dictGet? env id with
      | some q => .ok (.num q)
      | none => if funcs.contains id then .ok (.func id) else .error (.nameError id)
  | .binop op l r =>
      match evalExpr funcs env l, evalExpr funcs env r with
      | .ok a, .ok b =>
          (match toQ a, toQ b with
          | .ok x, .ok y =>
              (match op with
              | .add => .ok (.num (x + y))
              | .sub => .ok (.num (x - y))
              | .mul => .ok (.num (x * y))
              | .div => if y = 0 then .error .zeroDivision else .ok (.num (x / y)))
          | .error e, _ => .error e
          | _, .error e => .error e)
      | .error e, _ => .error e
      | _, .error e => .error e
  | .call f args =>
      match evalExpr funcs env f with
      | .error e => .error e
      | .ok fv =>
          match evalArgs funcs env args with
          | .error e => .error e
          | .ok qs =>
              match fv with
              | .func n => (applyFunc n qs).map .num
              | _ => .error .typeError
  | .compare op l r =>
      match evalExpr funcs env l, evalExpr funcs env r with
      | .ok a, .ok b =>
          (match toQ a, toQ b with
          | .ok x, .ok y =>
              (match op with
              | .lt => .ok (.bool (decide (x < y)))
              | .le => .ok (.bool (decide (x ≤ y)))
              | .gt => .ok (.bool (decide (y < x)))
              | .ge => .ok (.bool (decide (y ≤ x)))
              | .eq => .ok (.bool (decide (x = y)))
              | .ne => .ok (.bool (decide (x ≠ y))))
          | .error e, _ => .error e
          | _, .error e => .error e)
      | .error e, _ => .error e
      | _, .error e => .error e
  | .ifExp c t e =>
      match evalExpr funcs env c with
      | .error err => .error err
      | .ok cv =>
          match toQ cv with
          | .error err => .error err
          | .ok q => if q = 0 then evalExpr funcs env e else evalExpr funcs env t
  | .lam _ => .error .typeError
  | .attr _ _ => .error .typeError
  | .subscript _ _ => .error .typeError
  | .strLit _ => .error .typeError

/-- Evaluation of a call's argument list, each coerced to a number. -/
def evalArgs (funcs : List String) (env : List (String × ℚ)) :
    List PyExpr → Except PyErr (List ℚ)
  | [] => .ok []
  | e :: es =>
      match evalExpr funcs env e with
      | .error err => .error err
      | .ok v =>
          match toQ v with
          | .error err => .error err
          | .ok q =>
              match evalArgs funcs env es with
              | .error err => .error err
              | .ok qs => .ok (q :: qs)
end

/-! ## execute_formula -/

/-- Failures of `execute_formula`: the `ValueError` propagated from
`validate_formula`, or a runtime error from `eval`. -/
inductive ExecErr
  | undefinedVars (e : UndefinedVarError)
  | runtime (e : PyErr)
deriving DecidableEq, Repr

/-- The takeaway `execute_formula`: validate against the binding names,
evaluate the tree over the numeric projection of the bindings, then resolve
the output scale. `formula` is the text the tree was parsed from; the
source's substring checks (`'in_millions(' in formula` and so on) run on
that text. `list(unique_scales)[0]` on a one-element set is its single
element, here the head of the deduplicated scale list. The evaluation
result is coerced to a number at the boundary (see `toQ`). -/
def execute_formula (formula : String) (tree : PyExpr)
    (value_objects : List (String × ValueObj)) : Except ExecErr ResultObj :=
  match validate_formula tree (value_objects.map Prod.fst) with
  | .error e => .error (.undefinedVars e)
  | .ok _ =>
    let values := value_objects.map (fun p => (p.1, p.2.value))
    match evalExpr WHITELIST values tree with
    | .error e => .error (.runtime e)
    | .ok rv =>
      match toQ rv with
      | .error e => .error (.runtime e)
      | .ok result =>
        let uses_scale_conversion :=
          strContains formula "in_millions(" || strContains formula "in_thousands(" ||
            strContains formula "in_billions("
        if uses_scale_conversion then
          let output_scale :=
            if strContains formula "in_millions(" then "Millions"
            else if strContains formula "in_thousands(" then "Thousands"
            else if strContains formula "in_billions(" then "Billions"
            else "Units"
          let display_value := result
          let scale_factor := scaleFactor output_scale
          let canonical_value := result * scale_factor
          .ok ⟨canonical_value, display_value, output_scale, "calculated",
            "result of " ++ formula⟩
        else
          let scales := value_objects.map (fun p => p.2.scale)
          let unique_scales := scales.dedup
          let output_scale :=
            if strContains formula "to_percentage" then "Units"
            else if strContains formula "/" && unique_scales.length == 1 &&
                !(unique_scales.headD "Units" == "Units") then "Units"
            else if unique_scales.length == 1 then unique_scales.headD "Units"
            else if strContains formula "/" || strContains formula "*" then "Units"
            else scales.headD "Units"
          let scale_factor := scaleFactor output_scale
          let display_value := if 1 < scale_factor then result / scale_factor else result
          .ok ⟨result, display_value, output_scale, "calculated", "result of " ++ formula⟩

/-- The bill234 `execute_formula`: no scale conversion functions, no
`display_value`, and the shared-scale rule is checked before the division
and percentage rules. -/
def execute_formula_b (formula : String) (tree : PyExpr)
    (value_objects : List (String × ValueObj)) : Except ExecErr ResultObjB :=
  match validate_formula_b tree (value_objects.map Prod.fst) with
  | .error e => .error (.undefinedVars e)
  | .ok _ =>
    let values := value_objects.map (fun p => (p.1, p.2.value))
    match evalExpr WHITELIST_B values tree with
    | .error e => .error (.runtime e)
    | .ok rv =>
      match toQ rv with
      | .error e => .error (.runtime e)
      | .ok result =>
        let scales := value_objects.map (fun p => p.2.scale)
        let unique_scales := scales.dedup
        let output_scale :=
          if unique_scales.length == 1 then unique_scales.headD "Units"
          else if strContains formula "to_percentage" then "Units"
          else if strContains formula "/" || strContains formula "*" then
            scales.headD "Units"
          else scales.headD "Units"
        .ok ⟨result, output_scale, "calculated", "result of " ++ formula⟩

/-! ## The value-store writes of one turn (test_example.py)

After executing a turn's formula, `test_example` stores values into the
conversation's `context['results_by_name']`: one guarded loop over the
turn's `value_objects` (skipped when the name is already in
`previous_results`, which mirrors the store's keys), then an unconditional
store of the final result under `var_name`. `previous_results` is modelled
by its key list, as the writes only test membership. -/

/-- One iteration of the guarded intermediate-value loop: skip the pair
when its name is already in `previous_results`, otherwise store it in both
dicts. -/
def storeStep {α : Type} (acc : List (String × α) × List String) (kv : String × α) :
    List (String × α) × List String :=
  if acc.2.contains kv.1 then acc
  else (dictSet acc.1 kv.1 kv.2, acc.2 ++ [kv.1])

/-- The store-write section of one turn (test_example.py lines 302-330):
the guarded loop over the turn's `value_objects`, then the unconditional
`context['results_by_name'][var_name] = result_obj`. Returns the updated
`results_by_name` and `previous_results` key list. -/
def storeTurnResults {α : Type} (results_by_name : List (String × α))
    (previous_results : List String) (value_objects : List (String × α))
    (var_name : String) (result_obj : α) : List (String × α) × List String :=
  let p := value_objects.foldl storeStep (results_by_name, previous_results)
  (dictSet p.1 var_name result_obj,
    if p.2.contains var_name then p.2 else p.2 ++ [var_name])

/-! ## Phase retry engine (retry_framework.py)

`run_phase_with_retry` loops `for attempt in range(max_retries + 1)`,
calling the phase function (with no error context at attempt 0, with the
previous attempt's context afterwards), validating the result, and either
returning it, retrying with a structured error context, or converting a
thrown exception into a synthetic context. The phase function is modelled
as a pure function of the attempt index and the passed context that either
returns a result or throws a message; the pair returned below carries the
outcome together with the number of phase-function invocations made. The
`ValidationError` message interpolates the phase name, the attempt total
and the final errors; it is modelled structurally as that data. -/

/-- The `error_context` dict `{attempt, errors, previous_result}`. -/
structure ErrorContext (R : Type) where
  attempt : Nat
  errors : List String
  previous_result : Option R
deriving DecidableEq, Repr

/-- The `ValidationError` raised when all retries are exhausted, carrying
the data its message interpolates. -/
structure ValidationError where
  phase_name : String
  attempts : Nat
  errors : List String
deriving DecidableEq, Repr

/-- One pass of the retry loop from a given attempt index with a given
number of loop iterations remaining; returns the outcome and the number of
phase-function invocations performed. -/
def run_phase_aux {R : Type} (phase_func : Nat → Option (ErrorContext R) → Except String R)
    (validator_func : R → List String) (phase_name : String) (max_retries : Nat) :
    Nat → Nat → Option (ErrorContext R) → Except ValidationError R × Nat
  | _, 0, error_context =>
      let final_errors := match error_context with
        | some c => c.errors
        | none => ["Unknown error"]
      (.error ⟨phase_name, max_retries + 1, final_errors⟩, 0)
  | attempt, remaining + 1, error_context =>
      match phase_func attempt error_context with
      | .error msg =>
          let next := run_phase_aux phase_func validator_func phase_name max_retries
            (attempt + 1) remaining (some ⟨attempt + 1, ["Exception: " ++ msg], none⟩)
          (next.1, next.2 + 1)
      | .ok result =>
          let errors := validator_func result
          if errors.isEmpty then (.ok result, 1)
          else
            let next := run_phase_aux phase_func validator_func phase_name max_retries
              (attempt + 1) remaining (some ⟨attempt + 1, errors, some result⟩)
            (next.1, next.2 + 1)

/-- `run_phase_with_retry` of retry_framework.py. -/
def run_phase_with_retry {R : Type}
    (phase_func : Nat → Option (ErrorContext R) → Except String R)
    (validator_func : R → List String) (max_retries : Nat) (phase_name : String) :
    Except ValidationError R × Nat :=
  run_phase_aux phase_func validator_func phase_name max_retries 0 (max_retries + 1) none

mutual
/-- The arithmetic grammar the specification claims the validator enforces
(spec, section 4.2): numeric literals, identifiers, the four binary
operators, parentheses (implicit in the tree), and calls to the fixed
whitelist. This definition follows the spec's words, to be compared with
`validate_formula`, which is translated from the source. -/
def specArithGrammar : PyExpr → Bool
  | .num _ => true
  | .name _ => true
  | .binop _ l r => specArithGrammar l && specArithGrammar r
  | .call (.name f) args => WHITELIST.contains f && specArithGrammarList args
  | _ => false

/-- Grammar check of a call's argument list. -/
def specArithGrammarList : List PyExpr → Bool
  | [] => true
  | e :: es => specArithGrammar e && specArithGrammarList es
end

/-- The chain of error contexts a never-throwing, never-validating run
builds: the context passed to attempt `n`. Attempt 0 gets none; attempt
`n + 1` gets the context built from attempt `n`'s result and its validator
errors. -/
def ctxChain {R : Type} (phase_ok : Nat → Option (ErrorContext R) → R)
    (validator_func : R → List String) : Nat → Option (ErrorContext R)
  | 0 => none
  | n + 1 =>
      let c := ctxChain phase_ok validator_func n
      let r := phase_ok n c
      some ⟨n + 1, validator_func r, some r⟩

/-- Decidable equality of results, for evaluating the development on
concrete inputs. -/
instance {ε α : Type} [DecidableEq ε] [DecidableEq α] : DecidableEq (Except ε α) := fun x y =>
  match x, y with
  | .ok a, .ok b => decidable_of_iff (a = b) (by simp)
  | .error a, .error b => decidable_of_iff (a = b) (by simp)
  | .ok _, .error _ => isFalse (by simp)
  | .error _, .ok _ => isFalse (by simp)

/-! ## Theorems -/

/-- Claim C1 counterexample: `ast.parse("a < b", mode='eval')` yields the
comparison tree `Compare(Name a, [Lt], [Name b])`; `validate_formula`
accepts it (both identifiers are available) although a comparison is
outside the arithmetic grammar the claim describes. -/
theorem C1_counterexample :
    validate_formula (.compare .lt (.name "a") (.name "b")) ["a", "b"] = .ok () ∧
      specArithGrammar (.compare .lt (.name "a") (.name "b")) = false := by
  constructor
  · rfl
  · rfl

/-- Claim C1 (amended): `validate_formula` accepts exactly the parsed trees
whose `ast.Name` identifiers all lie in the available names or the function
whitelist; it does not restrict the kinds of expression nodes, so
comparisons, conditionals, lambdas, attribute accesses, subscriptions and
string literals built over allowed names are accepted as well. -/
theorem C1_validate_is_name_check_only (tree : PyExpr) (names : List String) :
    validate_formula tree names = .ok () ↔
      ∀ v ∈ collectNames tree, v ∈ names ++ WHITELIST := by
  have key : ((collectNames tree).dedup.filter
      (fun v => !((names ++ WHITELIST).contains v))).isEmpty = true ↔
      ∀ v ∈ collectNames tree, v ∈ names ++ WHITELIST := by
    rw [List.isEmpty_iff, List.filter_eq_nil_iff]
    constructor
    · intro h v hv
      have h2 := h v (List.mem_dedup.mpr hv)
      simp at h2
      rw [List.mem_append]
      tauto
    · intro h v hv
      have h3 := h v (List.mem_dedup.mp hv)
      rw [List.mem_append] at h3
      simp
      tauto
  simp only [validate_formula, validateTree]
  by_cases hc : ((collectNames tree).dedup.filter
      (fun v => !((names ++ WHITELIST).contains v))).isEmpty = true
  · rw [if_pos hc]
    exact iff_of_true rfl (key.mp hc)
  · rw [if_neg hc]
    exact iff_of_false (by simp) (fun h => hc (key.mpr h))

/-- Claim C2 counterexample: the formula `a/b` passes validation against
numeric bindings, yet executing it with `b = 0` raises `ZeroDivisionError`,
so the validate-then-execute pipeline can fail beyond the two validation
errors. -/
theorem C2_counterexample :
    validate_formula (.binop .div (.name "a") (.name "b")) ["a", "b"] = .ok () ∧
      execute_formula "a/b" (.binop .div (.name "a") (.name "b"))
        [("a", ⟨1, "Units", "s", "d"⟩), ("b", ⟨0, "Units", "s", "d"⟩)] =
        .error (.runtime .zeroDivision) := by
  constructor
  · rfl
  · rfl

/-- Claim C2 (amended): validation does not make execution exception-free.
Whenever the denominator binding of a validated division is zero, execution
raises `ZeroDivisionError`; runtime failures are therefore possible after a
successful validation. -/
theorem C2_validated_execution_can_raise (a b : ValueObj) (hb : b.value = 0) :
    execute_formula "a/b" (.binop .div (.name "a") (.name "b"))
      [("a", a), ("b", b)] = .error (.runtime .zeroDivision) := by
  simp [execute_formula, validate_formula, validateTree, collectNames, WHITELIST,
    evalExpr, dictGet?, toQ, hb]

/-- Witness for C2 (amended) at a concrete input. -/
theorem C2_validated_execution_can_raise_witness :
    execute_formula "a/b" (.binop .div (.name "a") (.name "b"))
      [("a", ⟨5363, "Millions", "calculated", "net sales"⟩),
       ("b", ⟨0, "Millions", "calculated", "divisor"⟩)] =
      .error (.runtime .zeroDivision) :=
  C2_validated_execution_can_raise ⟨5363, "Millions", "calculated", "net sales"⟩
    ⟨0, "Millions", "calculated", "divisor"⟩ rfl

/-- Assignment under one key leaves lookups of a different key unchanged. -/
lemma dictGet_set_ne {α : Type} (d : List (String × α)) (k n : String) (v : α)
    (h : ¬ k = n) : dictGet? (dictSet d k v) n = dictGet? d n := by
  induction d with
  | nil => simp [dictSet, dictGet?, h]
  | cons p rest ih =>
    by_cases hp : p.1 == k
    · have hk : p.1 = k := by simpa using hp
      simp [dictSet, hp, dictGet?, h, hk]
    · simp only [dictSet, hp, if_false, Bool.false_eq_true, dictGet?]
      by_cases hpn : p.1 == n
      · simp [hpn]
      · simp [hpn, ih]

/-- The guarded intermediate-value loop never touches a name that is
already recorded in `previous_results`, and keeps it recorded. -/
lemma storeLoop_preserve {α : Type} (vos : List (String × α)) (store : List (String × α))
    (prev : List String) (n : String) (hn : n ∈ prev) :
    dictGet? (vos.foldl storeStep (store, prev)).1 n = dictGet? store n ∧
      n ∈ (vos.foldl storeStep (store, prev)).2 := by
  induction vos generalizing store prev with
  | nil => exact ⟨rfl, hn⟩
  | cons kv rest ih =>
    rw [List.foldl_cons]
    by_cases hc : prev.contains kv.1
    · have hc' : kv.1 ∈ prev := by simpa using hc
      have hstep : storeStep (store, prev) kv = (store, prev) := by simp [storeStep, hc']
      rw [hstep]
      exact ih store prev hn
    · have hc' : kv.1 ∉ prev := by simpa using hc
      have hne : ¬ kv.1 = n := by
        intro he
        exact hc' (he ▸ hn)
      have hstep : storeStep (store, prev) kv = (dictSet store kv.1 kv.2, prev ++ [kv.1]) := by
        simp [storeStep, hc']
      rw [hstep]
      have h2 := ih (dictSet store kv.1 kv.2) (prev ++ [kv.1]) (List.mem_append_left _ hn)
      rw [dictGet_set_ne store kv.1 n kv.2 hne] at h2
      exact h2

/-- Claim C3 counterexample: with `x` already stored (and recorded in
`previous_results`), a later turn whose final result variable is again `x`
overwrites the stored value: the final store
`context['results_by_name'][var_name] = result_obj` is unconditional. -/
theorem C3_counterexample :
    dictGet? (storeTurnResults
        [("x", (⟨10000000, "Millions", "calculated", "first"⟩ : ValueObj))]
        ["x"] [] "x" ⟨42, "Units", "calculated", "second"⟩).1 "x" =
      some ⟨42, "Units", "calculated", "second"⟩ ∧
      (⟨42, "Units", "calculated", "second"⟩ : ValueObj) ≠
        ⟨10000000, "Millions", "calculated", "first"⟩ := by
  constructor
  · rfl
  · decide

/-- Claim C3 (amended): the guarded intermediate-value stores are silent
no-ops for names already present, so any name recorded in
`previous_results` that differs from the turn's final result variable keeps
its stored value; the final-result store, however, is an unconditional
assignment and can overwrite (see the counterexample). -/
theorem C3_guarded_stores_preserve {α : Type} (store : List (String × α))
    (prev : List String) (vos : List (String × α)) (var_name : String) (robj : α)
    (n : String) (hn : n ∈ prev) (hv : ¬ n = var_name) :
    dictGet? (storeTurnResults store prev vos var_name robj).1 n = dictGet? store n := by
  unfold storeTurnResults
  have h := storeLoop_preserve vos store prev n hn
  rw [dictGet_set_ne (vos.foldl storeStep (store, prev)).1 var_name n robj
    (fun he => hv he.symm)]
  exact h.1

/-- Witness for C3 (amended) at a concrete input. -/
theorem C3_guarded_stores_preserve_witness :
    dictGet? (storeTurnResults
        [("x", (⟨7983, "Millions", "calculated", "first"⟩ : ValueObj))]
        ["x"] [("x", ⟨1, "Units", "s", "d"⟩), ("y", ⟨2, "Units", "s", "d"⟩)]
        "z" ⟨3, "Units", "calculated", "z"⟩).1 "x" =
      dictGet? [("x", (⟨7983, "Millions", "calculated", "first"⟩ : ValueObj))] "x" :=
  C3_guarded_stores_preserve (α := ValueObj)
    [("x", ⟨7983, "Millions", "calculated", "first"⟩)] ["x"]
    [("x", ⟨1, "Units", "s", "d"⟩), ("y", ⟨2, "Units", "s", "d"⟩)]
    "z" ⟨3, "Units", "calculated", "z"⟩ "x" (by decide) (by decide)

/-- Claim C4 counterexample: the bill234 `execute_formula` (one of the
claim's two cited implementations) checks the shared-scale rule before the
same-scale-division rule, so at the claim's own input it returns scale
`Millions`, not `Units`. -/
theorem C4_counterexample :
    execute_formula_b "a/b" (.binop .div (.name "a") (.name "b"))
      [("a", ⟨100000000, "Millions", "s", "a value"⟩),
       ("b", ⟨50000000, "Millions", "s", "b value"⟩)] =
      .ok ⟨2, "Millions", "calculated", "result of a/b"⟩ ∧
      ("Millions" : String) ≠ "Units" := by
  constructor
  · have key : execute_formula_b "a/b" (.binop .div (.name "a") (.name "b"))
        [("a", ⟨100000000, "Millions", "s", "a value"⟩),
         ("b", ⟨50000000, "Millions", "s", "b value"⟩)] =
        .ok ⟨(100000000 : ℚ) / 50000000, "Millions", "calculated", "result of a/b"⟩ := rfl
    rw [key]
    norm_num
  · decide

/-- Claim C4 (amended): on the takeaway `execute_formula`, dividing two
bindings of one shared scale `S ≠ Units` (with a nonzero denominator, else
nothing is returned) yields the quotient of the canonical values with scale
`Units`; the bill234 variant instead returns the shared scale `S` (see the
counterexample). -/
theorem C4_same_scale_division_units (a b : ValueObj) (S : String)
    (ha : a.scale = S) (hb : b.scale = S) (hS : S ≠ "Units") (hbv : b.value ≠ 0) :
    execute_formula "a/b" (.binop .div (.name "a") (.name "b")) [("a", a), ("b", b)] =
      .ok ⟨a.value / b.value, a.value / b.value, "Units", "calculated", "result of a/b"⟩ := by
  have hval : validate_formula (.binop .div (.name "a") (.name "b")) ["a", "b"] = .ok () := rfl
  have heval : evalExpr WHITELIST [("a", a.value), ("b", b.value)]
      (.binop .div (.name "a") (.name "b")) = .ok (.num (a.value / b.value)) := by
    simp [evalExpr, dictGet?, toQ, hbv]
  have h1 : strContains "a/b" "in_millions(" = false := by decide
  have h2 : strContains "a/b" "in_thousands(" = false := by decide
  have h3 : strContains "a/b" "in_billions(" = false := by decide
  have h4 : strContains "a/b" "to_percentage" = false := by decide
  have h5 : strContains "a/b" "/" = true := by decide
  have hbeq : (S == "Units") = false := beq_eq_false_iff_ne.mpr hS
  simp only [execute_formula, List.map, hval, heval, toQ, h1, h2, h3, h4, h5, ha, hb]
  simp [List.dedup_cons_of_mem, hbeq, scaleFactor, SCALE_FACTORS, dictGet?]

/-- Witness for C4 (amended) at the claim's concrete input: value `2.0`,
scale `Units`. -/
theorem C4_same_scale_division_units_witness :
    execute_formula "a/b" (.binop .div (.name "a") (.name "b"))
      [("a", ⟨100000000, "Millions", "s", "a value"⟩),
       ("b", ⟨50000000, "Millions", "s", "b value"⟩)] =
      .ok ⟨2, 2, "Units", "calculated", "result of a/b"⟩ := by
  have h := C4_same_scale_division_units ⟨100000000, "Millions", "s", "a value"⟩
    ⟨50000000, "Millions", "s", "b value"⟩ "Millions" rfl rfl (by decide) (by norm_num)
  rw [h]
  norm_num

/-- Claim C5: a parsed formula referencing an identifier that is neither an
available name nor a whitelisted function fails validation with an error
naming exactly the offending identifiers (each used identifier outside the
allowed set, and only those) and carrying the full available-name set. -/
theorem C5_undefined_variable_error (tree : PyExpr) (names : List String) (z : String)
    (hz : z ∈ collectNames tree) (hnot : z ∉ names ++ WHITELIST) :
    ∃ e : UndefinedVarError, validate_formula tree names = .error e ∧
      z ∈ e.undefined ∧ e.available = names ∧
      ∀ v, v ∈ e.undefined ↔ v ∈ collectNames tree ∧ v ∉ names ++ WHITELIST := by
  refine ⟨⟨(collectNames tree).dedup.filter (fun v => !((names ++ WHITELIST).contains v)),
    names⟩, ?_, ?_, rfl, ?_⟩
  · have hzin : z ∈ (collectNames tree).dedup.filter
        (fun v => !((names ++ WHITELIST).contains v)) := by
      rw [List.mem_filter]
      exact ⟨List.mem_dedup.mpr hz, by simpa using hnot⟩
    have hne : ((collectNames tree).dedup.filter
        (fun v => !((names ++ WHITELIST).contains v))).isEmpty = false := by
      rcases h : ((collectNames tree).dedup.filter
          (fun v => !((names ++ WHITELIST).contains v))) with _ | _
      · rw [h] at hzin
        cases hzin
      · rfl
    simp only [validate_formula, validateTree]
    rw [if_neg (fun hcontra => by rw [hne] at hcontra; exact Bool.noConfusion hcontra)]
  · rw [List.mem_filter]
    exact ⟨List.mem_dedup.mpr hz, by simpa using hnot⟩
  · intro v
    rw [List.mem_filter, List.mem_dedup]
    simp

/-- Witness for C5 at the spec's example: `Validate("a + z", {a})` fails
mentioning `z` and listing `a` as available. -/
theorem C5_undefined_variable_error_witness :
    ∃ e : UndefinedVarError,
      validate_formula (.binop .add (.name "a") (.name "z")) ["a"] = .error e ∧
      "z" ∈ e.undefined ∧ e.available = ["a"] ∧
      ∀ v, v ∈ e.undefined ↔
        v ∈ collectNames (.binop .add (.name "a") (.name "z")) ∧ v ∉ ["a"] ++ WHITELIST :=
  C5_undefined_variable_error (.binop .add (.name "a") (.name "z")) ["a"] "z"
    (by decide) (by decide)

/-- When the phase function always returns a result and the validator
always rejects it, the retry loop consumes every remaining iteration and
ends with the terminal error built from the final attempt's validator
errors, performing one phase invocation per iteration. -/
lemma run_phase_aux_all_invalid {R : Type} (phase_ok : Nat → Option (ErrorContext R) → R)
    (validator_func : R → List String) (phase_name : String) (max_retries : Nat)
    (hval : ∀ r, validator_func r ≠ []) :
    ∀ remaining attempt, attempt + remaining = max_retries + 1 → 1 ≤ remaining →
      run_phase_aux (fun n c => .ok (phase_ok n c)) validator_func phase_name max_retries
        attempt remaining (ctxChain phase_ok validator_func attempt) =
        (.error ⟨phase_name, max_retries + 1,
          validator_func (phase_ok max_retries (ctxChain phase_ok validator_func max_retries))⟩,
          remaining) := by
  intro remaining
  induction remaining with
  | zero => intro attempt _ h; exact absurd h (by omega)
  | succ k ih =>
    intro attempt hsum _
    have herr : (validator_func (phase_ok attempt
        (ctxChain phase_ok validator_func attempt))).isEmpty = false := by
      rcases hv : validator_func (phase_ok attempt (ctxChain phase_ok validator_func attempt))
        with _ | _
      · exact absurd hv (hval _)
      · rfl
    rw [run_phase_aux.eq_def]
    simp only [herr, Bool.false_eq_true, if_false]
    have hctx : (some (⟨attempt + 1,
        validator_func (phase_ok attempt (ctxChain phase_ok validator_func attempt)),
        some (phase_ok attempt (ctxChain phase_ok validator_func attempt))⟩ :
          ErrorContext R)) = ctxChain phase_ok validator_func (attempt + 1) := rfl
    rw [hctx]
    cases k with
    | zero =>
      have hatt : attempt = max_retries := by omega
      subst hatt
      rw [run_phase_aux.eq_def]
      try rfl
    | succ m =>
      rw [ih (attempt + 1) (by omega) (by omega)]
      try rfl

/-- Claim C6: with a stage function that always produces a result and a
validator that rejects every result, `run_phase_with_retry` invokes the
stage exactly `max_retries + 1` times and raises a `ValidationError`
carrying the validator errors of the final attempt (the attempt at index
`max_retries`, invoked with the error context the loop built for it). -/
theorem C6_retry_exhaustion {R : Type} (phase_ok : Nat → Option (ErrorContext R) → R)
    (validator_func : R → List String) (max_retries : Nat) (phase_name : String)
    (hval : ∀ r, validator_func r ≠ []) :
    run_phase_with_retry (fun n c => .ok (phase_ok n c)) validator_func max_retries
      phase_name =
      (.error ⟨phase_name, max_retries + 1,
        validator_func (phase_ok max_retries (ctxChain phase_ok validator_func max_retries))⟩,
        max_retries + 1) := by
  unfold run_phase_with_retry
  have h := run_phase_aux_all_invalid phase_ok validator_func phase_name max_retries hval
    (max_retries + 1) 0 (by omega) (by omega)
  exact h

/-- Witness for C6 at a concrete stage and validator: three invocations,
then the error carrying the final validator output. -/
theorem C6_retry_exhaustion_witness :
    run_phase_with_retry (fun n c => .ok ((fun _ _ => (7 : Nat)) n c))
      (fun _ => ["bad"]) 2 "P" =
      (.error ⟨"P", 3, ["bad"]⟩, 3) := by
  have h := C6_retry_exhaustion (fun _ _ => (7 : Nat)) (fun _ => ["bad"]) 2 "P"
    (fun r => by simp)
  exact h

/-- Claim C7: a thrown exception at attempt 0 is caught and converted into
the synthetic error context `{attempt: 1, errors: ["Exception: " + msg],
previous_result: none}`, and the loop proceeds exactly as after a
validation failure: if the stage then returns a valid result at attempt 1
(with `max_retries ≥ 1`), the run succeeds with that second result after
exactly two stage invocations. The second hypothesis pins the context the
loop passes to attempt 1 to exactly the synthetic one. -/
theorem C7_exception_retried {R : Type}
    (phase_func : Nat → Option (ErrorContext R) → Except String R)
    (validator_func : R → List String) (max_retries : Nat) (phase_name : String)
    (msg : String) (r : R) (hmr : 1 ≤ max_retries)
    (h0 : phase_func 0 none = .error msg)
    (h1 : phase_func 1 (some ⟨1, ["Exception: " ++ msg], none⟩) = .ok r)
    (hr : validator_func r = []) :
    run_phase_with_retry phase_func validator_func max_retries phase_name = (.ok r, 2) := by
  obtain ⟨k, hk⟩ : ∃ k, max_retries = k + 1 := ⟨max_retries - 1, by omega⟩
  subst hk
  unfold run_phase_with_retry
  rw [run_phase_aux.eq_def]
  simp only [h0]
  rw [run_phase_aux.eq_def]
  simp only [h1, hr, List.isEmpty_nil, if_true]

/-- Witness for C7 at a concrete throwing-then-succeeding stage. -/
theorem C7_exception_retried_witness :
    run_phase_with_retry
      (fun n _ => if n = 0 then .error "boom" else .ok (42 : Nat))
      (fun _ => []) 1 "P" = (.ok 42, 2) :=
  C7_exception_retried
    (fun n _ => if n = 0 then .error "boom" else .ok (42 : Nat))
    (fun _ => []) 1 "P" "boom" 42 (by omega) rfl rfl rfl

/-- Every scale factor the executor can pick up is one of the four table
entries (the `.get` default is 1, the same as the Units entry). -/
lemma scaleFactor_cases (s : String) :
    scaleFactor s = 1 ∨ scaleFactor s = 1000 ∨ scaleFactor s = 1000000 ∨
      scaleFactor s = 1000000000 := by
  simp only [scaleFactor, SCALE_FACTORS, dictGet?]
  split_ifs <;> simp

/-- The normal-branch display value times the factor recovers the canonical
result, for any output scale string. -/
lemma display_invariant_helper (result : ℚ) (os : String) :
    result = (if 1 < scaleFactor os then result / scaleFactor os else result) *
      scaleFactor os := by
  rcases scaleFactor_cases os with h | h | h | h <;> rw [h] <;> norm_num

/-- Claim C8: every value object returned by `execute_formula` satisfies
`value = display_value * scaleFactor(scale)` — on the scale-conversion
branch the canonical value is rebuilt as `display_value * factor`, and on
the normal branch the display value is the canonical result divided by the
factor (or the result itself when the factor is 1). -/
theorem C8_display_value_invariant (formula : String) (tree : PyExpr)
    (vos : List (String × ValueObj)) (r : ResultObj)
    (h : execute_formula formula tree vos = .ok r) :
    r.value = r.display_value * scaleFactor r.scale := by
  unfold execute_formula at h
  rcases hval : validate_formula tree (vos.map Prod.fst) with e | u
  · simp [hval] at h
  · simp only [hval] at h
    rcases he : evalExpr WHITELIST (vos.map fun p => (p.1, p.2.value)) tree with e | rv
    · simp [he] at h
    · simp only [he] at h
      rcases hq : toQ rv with e | result
      · simp [hq] at h
      · simp only [hq] at h
        by_cases hu : (strContains formula "in_millions(" ||
            strContains formula "in_thousands(" ||
            strContains formula "in_billions(") = true
        · rw [if_pos hu] at h
          simp only [Except.ok.injEq] at h
          subst h
          rfl
        · rw [if_neg hu] at h
          simp only [Except.ok.injEq] at h
          subst h
          exact display_invariant_helper _ _

/-- Witness for C8: the spec's same-scale addition example, stated with the
unevaluated rational arithmetic the executor builds. -/
theorem C8_display_value_invariant_witness :
    execute_formula "a+b" (.binop .add (.name "a") (.name "b"))
      [("a", ⟨10000000, "Millions", "s", "d"⟩), ("b", ⟨5000000, "Millions", "s", "d"⟩)] =
      .ok ⟨(10000000 : ℚ) + 5000000, ((10000000 : ℚ) + 5000000) / 1000000, "Millions",
        "calculated", "result of a+b"⟩ ∧
      ((10000000 : ℚ) + 5000000) =
        (((10000000 : ℚ) + 5000000) / 1000000) * scaleFactor "Millions" := by
  constructor
  · rfl
  · exact C8_display_value_invariant "a+b" (.binop .add (.name "a") (.name "b"))
      [("a", ⟨10000000, "Millions", "s", "d"⟩), ("b", ⟨5000000, "Millions", "s", "d"⟩)]
      ⟨(10000000 : ℚ) + 5000000, ((10000000 : ℚ) + 5000000) / 1000000, "Millions",
        "calculated", "result of a+b"⟩ rfl

/-- Claim C9 counterexample: in `Execute("b + a")` with bindings inserted
in the order `a: Millions`, `b: Thousands` (mixed scales, pure addition),
the fallback picks `scales[0]`, the scale of the first *binding* (`a`,
Millions) — not the scale of the formula's first operand (`b`,
Thousands). -/
theorem C9_counterexample :
    execute_formula "b + a" (.binop .add (.name "b") (.name "a"))
      [("a", ⟨1000000, "Millions", "s", "d"⟩), ("b", ⟨2000, "Thousands", "s", "d"⟩)] =
      .ok ⟨(2000 : ℚ) + 1000000, ((2000 : ℚ) + 1000000) / 1000000, "Millions", "calculated",
        "result of b + a"⟩ ∧ ("Millions" : String) ≠ "Thousands" := by
  constructor
  · rfl
  · decide

/-- Claim C9 (amended): for an addition/subtraction formula (no `/`, `*`,
`to_percentage` or scale-conversion substring) over bindings that do not
all share one scale, the output scale is the scale of the *first entry of
the bindings map* (`scales[0]`, dict insertion order), which need not be
the formula's first operand. -/
theorem C9_mixed_add_uses_first_binding_scale (formula : String) (tree : PyExpr)
    (p : String × ValueObj) (rest : List (String × ValueObj)) (r : ResultObj)
    (h1 : strContains formula "in_millions(" = false)
    (h2 : strContains formula "in_thousands(" = false)
    (h3 : strContains formula "in_billions(" = false)
    (h4 : strContains formula "to_percentage" = false)
    (h5 : strContains formula "/" = false)
    (h6 : strContains formula "*" = false)
    (hmix : ¬ ((p :: rest).map (fun q => q.2.scale)).dedup.length = 1)
    (h : execute_formula formula tree (p :: rest) = .ok r) :
    r.scale = p.2.scale := by
  have hmix' : ¬ (p.2.scale :: rest.map (fun q => q.2.scale)).dedup.length = 1 := by
    simpa using hmix
  unfold execute_formula at h
  simp only [List.map_cons] at h
  rcases hval : validate_formula tree (p.1 :: rest.map Prod.fst) with e | u
  · simp [hval] at h
  · simp only [hval] at h
    rcases he : evalExpr WHITELIST ((p.1, p.2.value) :: rest.map fun q => (q.1, q.2.value))
      tree with e | rv
    · simp [he] at h
    · simp only [he] at h
      rcases hq : toQ rv with e | result
      · simp [hq] at h
      · simp only [hq] at h
        rw [if_neg (by simp [h1, h2, h3])] at h
        simp only [Except.ok.injEq] at h
        subst h
        simp [h4, h5, h6, hmix']

/-- Witness for C9 (amended) at the counterexample's input. -/
theorem C9_mixed_add_uses_first_binding_scale_witness :
    (⟨(2000 : ℚ) + 1000000, ((2000 : ℚ) + 1000000) / 1000000, "Millions", "calculated",
      "result of b + a"⟩ : ResultObj).scale =
      (("a", (⟨1000000, "Millions", "s", "d"⟩ : ValueObj))).2.scale :=
  C9_mixed_add_uses_first_binding_scale "b + a" (.binop .add (.name "b") (.name "a"))
    ("a", ⟨1000000, "Millions", "s", "d"⟩) [("b", ⟨2000, "Thousands", "s", "d"⟩)]
    ⟨(2000 : ℚ) + 1000000, ((2000 : ℚ) + 1000000) / 1000000, "Millions", "calculated",
      "result of b + a"⟩
    (by decide) (by decide) (by decide) (by decide) (by decide) (by decide) (by decide) rfl

/-- Claim C10: scale-conversion detection is by substring presence with a
fixed precedence, not by call position. Whenever the formula text contains
`"in_millions("` anywhere, the result carries scale `Millions` and its
canonical value is the raw evaluation result (stored as the display value)
times 1e6 — regardless of where the call sits and of other conversion
substrings; and when `"in_millions("` is absent, `"in_thousands("` takes
precedence over `"in_billions("` the same way with factor 1e3. -/
theorem C10_substring_scale_conversion :
    (∀ (formula : String) (tree : PyExpr) (vos : List (String × ValueObj)) (r : ResultObj),
        strContains formula "in_millions(" = true →
        execute_formula formula tree vos = .ok r →
        r.scale = "Millions" ∧ r.value = r.display_value * 1000000) ∧
    (∀ (formula : String) (tree : PyExpr) (vos : List (String × ValueObj)) (r : ResultObj),
        strContains formula "in_millions(" = false →
        strContains formula "in_thousands(" = true →
        execute_formula formula tree vos = .ok r →
        r.scale = "Thousands" ∧ r.value = r.display_value * 1000) := by
  constructor
  · intro formula tree vos r hm h
    unfold execute_formula at h
    rcases hval : validate_formula tree (vos.map Prod.fst) with e | u
    · simp [hval] at h
    · simp only [hval] at h
      rcases he : evalExpr WHITELIST (vos.map fun p => (p.1, p.2.value)) tree with e | rv
      · simp [he] at h
      · simp only [he] at h
        rcases hq : toQ rv with e | result
        · simp [hq] at h
        · simp only [hq] at h
          rw [if_pos (by simp [hm])] at h
          simp only [Except.ok.injEq] at h
          subst h
          constructor
          · simp [hm]
          · simp [hm, scaleFactor, SCALE_FACTORS, dictGet?]
  · intro formula tree vos r hm ht h
    unfold execute_formula at h
    rcases hval : validate_formula tree (vos.map Prod.fst) with e | u
    · simp [hval] at h
    · simp only [hval] at h
      rcases he : evalExpr WHITELIST (vos.map fun p => (p.1, p.2.value)) tree with e | rv
      · simp [he] at h
      · simp only [he] at h
        rcases hq : toQ rv with e | result
        · simp [hq] at h
        · simp only [hq] at h
          rw [if_pos (by simp [ht])] at h
          simp only [Except.ok.injEq] at h
          subst h
          constructor
          · simp [hm, ht]
          · simp [hm, ht, scaleFactor, SCALE_FACTORS, dictGet?]

end GraphSolver
